import Mathlib

/-!
# VMWareAutoShutdown: the shutdown pipeline of `main.cpp`

A shallow embedding of `HandleRunningVm`, the power-off job it creates,
`ShutdownAllVirtualMachines` and `EventHandler`.

* Every function is translated to a Lean function that returns the ordered list
  of calls it makes to the VIX service and to the thread library (a call trace),
  together with its local state and the way it left its scope.
* The VIX service is external.  Its answers are inputs of the model
  (`JobResponses`, `EventInfo`, `World`), so every theorem quantifies over all
  behaviours of the service.
* Logging (`LOG`, `VLOG`) is not modelled.  The mutex of `JobData` is not modelled
  either: discovery callbacks are delivered one after the other and no power-off
  job touches the job vector.
* Threads: `std::thread` starts running its function when it is constructed, it is
  joinable until `join` returned, and destroying a joinable `std::thread` calls
  `std::terminate`.  Interleavings of the main thread with the job threads are the
  runs of `Sys.step` under an arbitrary schedule.  The calls of the discovery
  callbacks are placed in the sequence of the main thread, between the enumeration
  request and the return of the wait on its job.
-/

namespace VMWareAutoShutdown

/-! ## Constants of the VIX SDK header and of the Windows headers -/

/-- Handle type of the VIX SDK (an int in `vix.h`). -/
abbrev VixHandle := Nat

/-- Error type of the VIX SDK (an unsigned 64 bit code in `vix.h`). -/
abbrev VixError := Nat

/-- Constant `VIX_INVALID_HANDLE` of `vix.h` (third-party header). -/
def VIX_INVALID_HANDLE : VixHandle := 0

/-- Constant `VIX_OK` of `vix.h` (third-party header). -/
def VIX_OK : VixError := 0

/-- Macro `VIX_FAILED(err)` of `vix.h`, defined there as `(VIX_OK != (err))`. -/
def VIX_FAILED (err : VixError) : Bool := err != VIX_OK

/-- Constant `VIX_EVENTTYPE_FIND_ITEM` of `vix.h` (third-party header). -/
def VIX_EVENTTYPE_FIND_ITEM : Nat := 8

/-- Constant `WM_ENDSESSION` of the Windows headers. -/
def WM_ENDSESSION : Nat := 0x16

/-! ## Call traces -/

/-- One observable call.  Arguments that the program passes and the values the
service hands back are both recorded:
`jobHandle` of `VixHost_Connect`, `VixHost_FindItems`, `VixVM_Open` and
`VixVM_PowerOff` is the handle the call returns; `result` of `VixJob_Wait` is the
handle the wait stores through its out-parameter (`none`: it stores nothing).
`threadStart id loc` is the construction of the `std::thread` of job `id` by
`emplace_back` (the thread starts to run), `threadJoin id` is `job.join()`, and
`terminate` is `std::terminate`. -/
inductive Call where
  | VixHost_Connect (jobHandle : VixHandle)
  | VixJob_Wait (jobHandle : VixHandle) (result : Option VixHandle) (err : VixError)
  | VixHost_FindItems (hostHandle : VixHandle) (jobHandle : VixHandle)
  | Vix_GetProperties (err : VixError)
  | Vix_FreeBuffer (location : Option String)
  | threadStart (id : Nat) (locationStr : String)
  | threadJoin (id : Nat)
  | VixVM_Open (hostHandle : VixHandle) (location : String) (jobHandle : VixHandle)
  | VixVM_PowerOff (vmHandle : VixHandle) (jobHandle : VixHandle)
  | Vix_ReleaseHandle (handle : VixHandle)
  | VixHost_Disconnect (hostHandle : VixHandle)
  | terminate
  deriving DecidableEq, Repr

/-- How a block of statements was left. -/
inductive Status where
  | running
  | returned
  | terminated
  deriving DecidableEq, Repr

/-- Execution of a block of statements with local variables `σ`: the calls made,
in order, the local variables at the end, and how the block was left
(`running`: control falls through to the next statement, `returned`: a `return`
statement was executed, `terminated`: `std::terminate` was called). -/
structure Exec (σ : Type) where
  calls : List Call
  state : σ
  status : Status

/-- Statement sequencing: what follows a block runs only when control fell
through the block. -/
def Exec.andThen {σ : Type} (a : Exec σ) (rest : σ → Exec σ) : Exec σ :=
  match a.status with
  | Status.running =>
    let b := rest a.state
    { calls := a.calls ++ b.calls, state := b.state, status := b.status }
  | _ => a

/-- Class `ScopedExit` (main.cpp 22-28): the destructor runs `func` when the
scope that declares the object is left, by falling through or by `return`.
`func` receives the local variables as they are at that moment (capture by
reference).  Nothing runs once `std::terminate` was called. -/
def ScopedExit {σ : Type} (func : σ → List Call) (body : Exec σ) : Exec σ :=
  match body.status with
  | Status.terminated => body
  | _ => { calls := body.calls ++ func body.state, state := body.state, status := body.status }

/-- The end of a function body: falling off the end is a return. -/
def Exec.finish {σ : Type} (a : Exec σ) : Exec σ :=
  match a.status with
  | Status.running => { calls := a.calls, state := a.state, status := Status.returned }
  | _ => a

/-! ## The power-off job (lambda of main.cpp 91-123) -/

/-- Answers of the VIX service to the calls of one power-off job. -/
structure JobResponses where
  /-- Job handle returned by `VixVM_Open`. -/
  openJob : VixHandle
  /-- Handle that the wait on the open job stores in `vmHandle`, if any. -/
  openVm : Option VixHandle
  /-- Error code of the wait on the open job. -/
  openErr : VixError
  /-- Job handle returned by `VixVM_PowerOff`. -/
  powerJob : VixHandle
  /-- Error code of the wait on the power-off job. -/
  powerErr : VixError
  deriving DecidableEq, Repr

/-- Block of main.cpp 97-109: open the VM and wait for the open job.  The local
variable of the function is `vmHandle`. -/
def openBlock (hostHandle : VixHandle) (locationStr : String) (r : JobResponses)
    (vmHandle : VixHandle) : Exec VixHandle :=
  ScopedExit (fun _ => [Call.Vix_ReleaseHandle r.openJob])
    { calls := [Call.VixVM_Open hostHandle locationStr r.openJob,
                Call.VixJob_Wait r.openJob r.openVm r.openErr]
      state := r.openVm.getD vmHandle
      status := if VIX_FAILED r.openErr then Status.returned else Status.running }

/-- Block of main.cpp 111-122: request the power-off and wait for its job. -/
def powerOffBlock (r : JobResponses) (vmHandle : VixHandle) : Exec VixHandle :=
  ScopedExit (fun _ => [Call.Vix_ReleaseHandle r.powerJob])
    { calls := [Call.VixVM_PowerOff vmHandle r.powerJob,
                Call.VixJob_Wait r.powerJob none r.powerErr]
      state := vmHandle
      status := if VIX_FAILED r.powerErr then Status.returned else Status.running }

set_option linter.unusedVariables false in
/-- The function run by the thread of one power-off job (main.cpp 91-123), with
the captured `jobData->hostHandle`, `locationStr` and `id`. -/
def powerOffJob (hostHandle : VixHandle) (locationStr : String) (id : Nat)
    (r : JobResponses) : Exec VixHandle :=
  Exec.finish <|
    ScopedExit (fun vmHandle => [Call.Vix_ReleaseHandle vmHandle]) <|
      (openBlock hostHandle locationStr r VIX_INVALID_HANDLE).andThen fun vmHandle =>
        powerOffBlock r vmHandle

/-- Handles released by a trace, in order. -/
def released : List Call → List VixHandle
  | [] => []
  | Call.Vix_ReleaseHandle h :: cs => h :: released cs
  | _ :: cs => released cs

/-- Handles acquired by a trace, in order: the job handles returned by the
asynchronous requests and the handles stored by a wait. -/
def acquired : List Call → List VixHandle
  | [] => []
  | Call.VixHost_Connect j :: cs => j :: acquired cs
  | Call.VixHost_FindItems _ j :: cs => j :: acquired cs
  | Call.VixVM_Open _ _ j :: cs => j :: acquired cs
  | Call.VixVM_PowerOff _ j :: cs => j :: acquired cs
  | Call.VixJob_Wait _ (some h) _ :: cs => h :: acquired cs
  | _ :: cs => acquired cs

/-- Whether a call is a power-off request. -/
def Call.isPowerOff : Call → Bool
  | Call.VixVM_PowerOff _ _ => true
  | _ => false

/-! ## The discovery callback (main.cpp 62-124) -/

/-- A `std::thread` of the job vector, with the values its function captured.
A thread is joinable from its construction until `join` has returned. -/
structure Thread where
  id : Nat
  locationStr : String
  joinable : Bool
  deriving DecidableEq, Repr

/-- Struct `JobData` (main.cpp 62-66); the mutex is not modelled. -/
structure JobData where
  hostHandle : VixHandle
  jobs : List Thread
  deriving DecidableEq, Repr

/-- Answer of `Vix_GetProperties` on the `moreEventInfo` handle of an event: the
error code, and the location string it stores when it succeeds. -/
structure EventInfo where
  err : VixError
  location : String
  deriving DecidableEq, Repr

/-- Local variables of `HandleRunningVm`: the buffer pointer `location`
(`none` is `nullptr`) and the `JobData` that `clientData` points to. -/
structure CallbackLocals where
  location : Option String
  jobData : JobData
  deriving DecidableEq, Repr

/-- Function `HandleRunningVm` (main.cpp 68-124). -/
def HandleRunningVm (eventType : Nat) (moreEventInfo : EventInfo) (clientData : JobData) :
    Exec CallbackLocals :=
  if eventType != VIX_EVENTTYPE_FIND_ITEM then
    { calls := [], state := { location := none, jobData := clientData }, status := Status.returned }
  else
    Exec.finish <|
      ScopedExit (fun s => [Call.Vix_FreeBuffer s.location]) <|
        Exec.andThen
          { calls := [Call.Vix_GetProperties moreEventInfo.err]
            state :=
              { location := if VIX_FAILED moreEventInfo.err then none else some moreEventInfo.location
                jobData := clientData }
            status := if VIX_FAILED moreEventInfo.err then Status.returned else Status.running }
          fun s =>
            { calls := [Call.threadStart s.jobData.jobs.length moreEventInfo.location]
              state :=
                { location := s.location
                  jobData :=
                    { hostHandle := s.jobData.hostHandle
                      jobs := s.jobData.jobs ++
                        [{ id := s.jobData.jobs.length
                           locationStr := moreEventInfo.location
                           joinable := true }] } }
              status := Status.running }

/-! ## The pipeline (main.cpp 126-173) -/

/-- One event that the service delivers to the discovery callback. -/
structure FindEvent where
  eventType : Nat
  moreEventInfo : EventInfo
  deriving DecidableEq, Repr

/-- Behaviour of the VIX service during one call of
`ShutdownAllVirtualMachines`. -/
structure World where
  /-- Job handle returned by `VixHost_Connect`. -/
  connectJob : VixHandle
  /-- Handle that the wait on the connect job stores in `hostHandle`, if any. -/
  connectHost : Option VixHandle
  /-- Error code of the wait on the connect job. -/
  connectErr : VixError
  /-- Job handle returned by `VixHost_FindItems`. -/
  findJob : VixHandle
  /-- Events delivered to `HandleRunningVm`, in order, after the request
  `VixHost_FindItems` and before the wait on its job returns. -/
  events : List FindEvent
  /-- Error code of the wait on the enumeration job. -/
  findErr : VixError
  /-- Answers to the power-off job with the given id. -/
  jobResp : Nat → JobResponses

/-- The service calls the callback once per event, with `&jobData` as client
data; a callback that returns hands control back to the service. -/
def deliverEvents : List FindEvent → JobData → List Call × JobData
  | [], jobData => ([], jobData)
  | ev :: evs, jobData =>
    let r := HandleRunningVm ev.eventType ev.moreEventInfo jobData
    let rest := deliverEvents evs r.state.jobData
    (r.calls ++ rest.1, rest.2)

/-- Local variables of `ShutdownAllVirtualMachines`. -/
structure ShutdownLocals where
  hostHandle : VixHandle
  jobData : JobData
  jobs : List Thread
  deriving DecidableEq, Repr

/-- Destructor of a `std::vector<std::thread>` at scope exit: destroying a
joinable thread calls `std::terminate`. -/
def ThreadsExit {σ : Type} (threads : σ → List Thread) (body : Exec σ) : Exec σ :=
  match body.status with
  | Status.terminated => body
  | _ =>
    if (threads body.state).any (fun t => t.joinable) then
      { calls := body.calls ++ [Call.terminate], state := body.state, status := Status.terminated }
    else body

/-- Block of main.cpp 130-145: connect to the local host. -/
def connectBlock (w : World) (s : ShutdownLocals) : Exec ShutdownLocals :=
  ScopedExit (fun _ => [Call.Vix_ReleaseHandle w.connectJob])
    { calls := [Call.VixHost_Connect w.connectJob,
                Call.VixJob_Wait w.connectJob w.connectHost w.connectErr]
      state := { s with hostHandle := w.connectHost.getD s.hostHandle }
      status := if VIX_FAILED w.connectErr then Status.returned else Status.running }

/-- Block of main.cpp 149-161: enumerate the running VMs. -/
def findBlock (w : World) (s : ShutdownLocals) : Exec ShutdownLocals :=
  ScopedExit (fun _ => [Call.Vix_ReleaseHandle w.findJob])
    { calls := [Call.VixHost_FindItems s.hostHandle w.findJob] ++
                (deliverEvents w.events s.jobData).1 ++
                [Call.VixJob_Wait w.findJob none w.findErr]
      state := { s with jobData := (deliverEvents w.events s.jobData).2 }
      status := if VIX_FAILED w.findErr then Status.returned else Status.running }

/-- Loop of main.cpp 169-171: join every thread of the vector, in order. -/
def joinAll : List Thread → List Call × List Thread
  | [] => ([], [])
  | t :: ts =>
    (Call.threadJoin t.id :: (joinAll ts).1,
     { id := t.id, locationStr := t.locationStr, joinable := false } :: (joinAll ts).2)

/-- Lines 163-172: move the job vector out of `jobData` and join its threads. -/
def joinBlock (s : ShutdownLocals) : Exec ShutdownLocals :=
  ThreadsExit (fun s => s.jobs)
    { calls := (joinAll s.jobData.jobs).1
      state :=
        { hostHandle := s.hostHandle
          jobData := { hostHandle := s.jobData.hostHandle, jobs := [] }
          jobs := (joinAll s.jobData.jobs).2 }
      status := Status.running }

/-- Function `ShutdownAllVirtualMachines` (main.cpp 126-173).  Scopes nest as
the declarations do: `disconnectHost` (128) is destroyed last, `jobData` (147)
before it, the local vector `jobs` (164) first. -/
def ShutdownAllVirtualMachines (w : World) : Exec ShutdownLocals :=
  Exec.finish <|
    ScopedExit (fun s => [Call.VixHost_Disconnect s.hostHandle]) <|
      (connectBlock w
        { hostHandle := VIX_INVALID_HANDLE
          jobData := { hostHandle := VIX_INVALID_HANDLE, jobs := [] }
          jobs := [] }).andThen fun s =>
        ThreadsExit (fun s => s.jobData.jobs) <|
          (findBlock w
            { hostHandle := s.hostHandle
              jobData := { hostHandle := s.hostHandle, jobs := [] }
              jobs := [] }).andThen joinBlock

/-- Ids of the threads started by a trace, in order. -/
def started : List Call → List Nat
  | [] => []
  | Call.threadStart id _ :: cs => id :: started cs
  | _ :: cs => started cs

/-- Ids of the threads joined by a trace, in order. -/
def joined : List Call → List Nat
  | [] => []
  | Call.threadJoin id :: cs => id :: joined cs
  | _ :: cs => joined cs

/-- Handles passed to `VixHost_Disconnect` by a trace, in order. -/
def disconnected : List Call → List VixHandle
  | [] => []
  | Call.VixHost_Disconnect h :: cs => h :: disconnected cs
  | _ :: cs => disconnected cs

/-- Whether a call is the enumeration request. -/
def Call.isFindItems : Call → Bool
  | Call.VixHost_FindItems _ _ => true
  | _ => false

/-- An event for which the callback creates a job: a `FIND_ITEM` event whose
location is retrieved successfully. -/
def FindEvent.discovers (ev : FindEvent) : Bool :=
  ev.eventType == VIX_EVENTTYPE_FIND_ITEM && !VIX_FAILED ev.moreEventInfo.err

/-- Content of `hostHandle` after the wait on the connect job. -/
def World.hostHandle (w : World) : VixHandle := w.connectHost.getD VIX_INVALID_HANDLE

/-- The job vector after the delivery of all events of the enumeration. -/
def World.threads (w : World) : List Thread :=
  (deliverEvents w.events { hostHandle := w.hostHandle, jobs := [] }).2.jobs

/-- The calls made by the discovery callbacks during the enumeration. -/
def World.callbackCalls (w : World) : List Call :=
  (deliverEvents w.events { hostHandle := w.hostHandle, jobs := [] }).1

/-- The world `w` with the answers to job `j` replaced by `r`: a second run in
which the service behaves the same for every VM except VM `j`. -/
def World.withJobResp (w : World) (j : Nat) (r : JobResponses) : World :=
  { connectJob := w.connectJob, connectHost := w.connectHost, connectErr := w.connectErr
    findJob := w.findJob, events := w.events, findErr := w.findErr
    jobResp := fun i => if i = j then r else w.jobResp i }

/-! ## Interleavings of the main thread and the job threads -/

/-- A thread of the process: the thread that runs
`ShutdownAllVirtualMachines`, or the thread of the power-off job `id`. -/
inductive Tid where
  | main
  | job (id : Nat)
  deriving DecidableEq, Repr

/-- Execution of the power-off job `id` in world `w`.  The job reads
`jobData->hostHandle`, which holds the value assigned at main.cpp 148: the
content of `hostHandle` after the wait on the connect job. -/
def jobExec (w : World) (id : Nat) (locationStr : String) : Exec VixHandle :=
  powerOffJob w.hostHandle locationStr id (w.jobResp id)

/-- State of the process: the calls the main thread still has to make, and for
every started job thread the calls it still has to make. -/
structure Sys where
  main : List Call
  jobs : List (Nat × List Call)
  deriving DecidableEq, Repr

/-- The process when `ShutdownAllVirtualMachines` is entered. -/
def Sys.init (w : World) : Sys :=
  { main := (ShutdownAllVirtualMachines w).calls, jobs := [] }

/-- Whether the thread of job `id` has run to its end. -/
def Sys.finished (jobs : List (Nat × List Call)) (id : Nat) : Bool :=
  jobs.any fun j => j.1 == id && j.2.isEmpty

/-- Take the next call of job `id`, if that thread exists and has one. -/
def Sys.popJob : List (Nat × List Call) → Nat → Option (Call × List (Nat × List Call))
  | [], _ => none
  | (i, cs) :: js, id =>
    if i = id then
      match cs with
      | [] => none
      | c :: rest => some (c, (i, rest) :: js)
    else
      match Sys.popJob js id with
      | none => none
      | some (c, js2) => some (c, (i, cs) :: js2)

/-- One step of thread `t`, or `none` when `t` cannot step.  A thread start
adds the new thread, which may run from then on; a join can only be passed once
the joined thread has run to its end; `std::terminate` ends the process. -/
def Sys.step (w : World) (s : Sys) : Tid → Option ((Tid × Call) × Sys)
  | Tid.main =>
    match s.main with
    | [] => none
    | Call.threadStart id loc :: rest =>
      some ((Tid.main, Call.threadStart id loc),
        { main := rest, jobs := s.jobs ++ [(id, (jobExec w id loc).calls)] })
    | Call.threadJoin id :: rest =>
      if Sys.finished s.jobs id then
        some ((Tid.main, Call.threadJoin id), { main := rest, jobs := s.jobs })
      else none
    | Call.terminate :: _ =>
      some ((Tid.main, Call.terminate), { main := [], jobs := [] })
    | c :: rest => some ((Tid.main, c), { main := rest, jobs := s.jobs })
  | Tid.job id =>
    match Sys.popJob s.jobs id with
    | none => none
    | some (c, js) => some ((Tid.job id, c), { main := s.main, jobs := js })

/-- The trace of the run that follows the schedule `sched` from state `s`, or
`none` when the schedule asks a thread to step that cannot. -/
def Sys.run (w : World) : Sys → List Tid → Option (List (Tid × Call))
  | _, [] => some []
  | s, t :: ts =>
    match Sys.step w s t with
    | none => none
    | some (e, s2) =>
      match Sys.run w s2 ts with
      | none => none
      | some tr => some (e :: tr)

/-- The state reached by the run that follows the schedule `sched` from state
`s`, or `none` when the schedule asks a thread to step that cannot. -/
def Sys.after (w : World) : Sys → List Tid → Option Sys
  | s, [] => some s
  | s, t :: ts =>
    match Sys.step w s t with
    | none => none
    | some (_, s2) => Sys.after w s2 ts

/-- Whether every join among the calls `cs` is for a thread that exists already
(`ids`) or is started by an earlier call of `cs`. -/
def Sys.ready : List Nat → List Call → Bool
  | _, [] => true
  | ids, Call.threadStart i _ :: cs => Sys.ready (i :: ids) cs
  | ids, Call.threadJoin i :: cs => decide (i ∈ ids) && Sys.ready ids cs
  | ids, _ :: cs => Sys.ready ids cs

/-! ## The window procedure (main.cpp 191-210) -/

/-- Initial value of the flag `quit` (main.cpp 192): an object of static
storage duration is zero-initialised. -/
def quit_initial : Bool := false

/-- A window message handled by `EventHandler`, together with the behaviour of
the VIX service while it is handled. -/
structure Message where
  msg : Nat
  host : World

/-- Function `EventHandler` (main.cpp 195-210); the local state is the flag
`quit`. -/
def EventHandler (m : Message) (quit : Bool) : Exec Bool :=
  if m.msg == WM_ENDSESSION then
    match (ShutdownAllVirtualMachines m.host).status with
    | Status.terminated =>
      { calls := (ShutdownAllVirtualMachines m.host).calls, state := quit
        status := Status.terminated }
    | _ =>
      { calls := (ShutdownAllVirtualMachines m.host).calls, state := true
        status := Status.returned }
  else
    { calls := [], state := quit, status := Status.returned }

/-- Values of `quit` over the life of the process: at the start and after each
handled message, until the messages end or the process is terminated. -/
def quitHistory : Bool → List Message → List Bool
  | quit, [] => [quit]
  | quit, m :: ms =>
    match (EventHandler m quit).status with
    | Status.terminated => [quit]
    | _ => quit :: quitHistory (EventHandler m quit).state ms

/-- Number of changes from false to true along a history. -/
def risings : List Bool → Nat
  | false :: true :: bs => risings (true :: bs) + 1
  | _ :: b :: bs => risings (b :: bs)
  | _ => 0

/-- Number of changes from true to false along a history. -/
def fallings : List Bool → Nat
  | true :: false :: bs => fallings (false :: bs) + 1
  | _ :: b :: bs => fallings (b :: bs)
  | _ => 0

/-! ## Concrete service behaviours used below -/

/-- Answers of a service for which both steps of a job succeed. -/
def respOk : JobResponses :=
  { openJob := 11, openVm := some 12, openErr := 0, powerJob := 13, powerErr := 0 }

/-- Answers of a service for which the open step of a job fails. -/
def respOpenFails : JobResponses :=
  { openJob := 11, openVm := none, openErr := 5, powerJob := 13, powerErr := 0 }

/-- A successful discovery event for the VM at `loc`. -/
def foundVm (loc : String) : FindEvent :=
  { eventType := VIX_EVENTTYPE_FIND_ITEM, moreEventInfo := { err := 0, location := loc } }

/-- A world: connect gives host handle 2, enumeration delivers `events` and ends
with `findErr`, every job gets the answers `respOk`. -/
def worldWith (events : List FindEvent) (findErr : VixError) : World :=
  { connectJob := 1, connectHost := some 2, connectErr := 0, findJob := 3
    events := events, findErr := findErr, jobResp := fun _ => respOk }

/-- A schedule that lets job 0 take its first step right after its thread was
started, while the main thread is still inside the enumeration. -/
def earlySchedule : List Tid :=
  [Tid.main, Tid.main, Tid.main, Tid.main, Tid.main, Tid.main, Tid.job 0, Tid.main, Tid.main]

/-- The run of `worldWith [foundVm "a.vmx"] 0` under `earlySchedule`. -/
def earlyTrace : List (Tid × Call) :=
  [(Tid.main, Call.VixHost_Connect 1),
   (Tid.main, Call.VixJob_Wait 1 (some 2) 0),
   (Tid.main, Call.Vix_ReleaseHandle 1),
   (Tid.main, Call.VixHost_FindItems 2 3),
   (Tid.main, Call.Vix_GetProperties 0),
   (Tid.main, Call.threadStart 0 "a.vmx"),
   (Tid.job 0, Call.VixVM_Open 2 "a.vmx" 11),
   (Tid.main, Call.Vix_FreeBuffer (some "a.vmx")),
   (Tid.main, Call.VixJob_Wait 3 none 0)]

/-- A world in which the connect step fails with error 4. -/
def worldConnectFails : World :=
  { connectJob := 1, connectHost := none, connectErr := 4, findJob := 3
    events := [foundVm "a.vmx"], findErr := 0, jobResp := fun _ => respOk }

/-! ## The power-off job: closed form of its trace -/

/-- Trace of a power-off job whose open step fails. -/
theorem powerOffJob_calls_of_open_failed (hostHandle : VixHandle) (locationStr : String)
    (id : Nat) (r : JobResponses) (h : VIX_FAILED r.openErr = true) :
    (powerOffJob hostHandle locationStr id r).calls =
      [Call.VixVM_Open hostHandle locationStr r.openJob,
       Call.VixJob_Wait r.openJob r.openVm r.openErr,
       Call.Vix_ReleaseHandle r.openJob,
       Call.Vix_ReleaseHandle (r.openVm.getD VIX_INVALID_HANDLE)] := by
  simp [powerOffJob, openBlock, Exec.andThen, ScopedExit, Exec.finish, h]

/-- Trace of a power-off job whose open step succeeds. -/
theorem powerOffJob_calls_of_open_ok (hostHandle : VixHandle) (locationStr : String)
    (id : Nat) (r : JobResponses) (h : VIX_FAILED r.openErr = false) :
    (powerOffJob hostHandle locationStr id r).calls =
      [Call.VixVM_Open hostHandle locationStr r.openJob,
       Call.VixJob_Wait r.openJob r.openVm r.openErr,
       Call.Vix_ReleaseHandle r.openJob,
       Call.VixVM_PowerOff (r.openVm.getD VIX_INVALID_HANDLE) r.powerJob,
       Call.VixJob_Wait r.powerJob none r.powerErr,
       Call.Vix_ReleaseHandle r.powerJob,
       Call.Vix_ReleaseHandle (r.openVm.getD VIX_INVALID_HANDLE)] := by
  cases hp : VIX_FAILED r.powerErr <;>
    simp [powerOffJob, openBlock, powerOffBlock, Exec.andThen, ScopedExit, Exec.finish, h, hp]

/-- A power-off job always ends by returning. -/
theorem powerOffJob_status (hostHandle : VixHandle) (locationStr : String)
    (id : Nat) (r : JobResponses) :
    (powerOffJob hostHandle locationStr id r).status = Status.returned := by
  cases ho : VIX_FAILED r.openErr <;> cases hp : VIX_FAILED r.powerErr <;>
    simp [powerOffJob, openBlock, powerOffBlock, Exec.andThen, ScopedExit, Exec.finish, ho, hp]

/-! ## The discovery callback and the delivery of events -/

theorem started_append (a b : List Call) : started (a ++ b) = started a ++ started b := by
  induction a with
  | nil => rfl
  | cons c cs ih => cases c <;> simp [started, ih]

theorem joined_append (a b : List Call) : joined (a ++ b) = joined a ++ joined b := by
  induction a with
  | nil => rfl
  | cons c cs ih => cases c <;> simp [joined, ih]

theorem disconnected_append (a b : List Call) :
    disconnected (a ++ b) = disconnected a ++ disconnected b := by
  induction a with
  | nil => rfl
  | cons c cs ih => cases c <;> simp [disconnected, ih]

/-- The callback on an event that discovers a VM: it retrieves the location,
appends one joinable thread whose id is the size of the vector, and frees the
buffer. -/
theorem HandleRunningVm_of_discovers (ev : FindEvent) (jobData : JobData)
    (h : ev.discovers = true) :
    (HandleRunningVm ev.eventType ev.moreEventInfo jobData).calls =
      [Call.Vix_GetProperties ev.moreEventInfo.err,
       Call.threadStart jobData.jobs.length ev.moreEventInfo.location,
       Call.Vix_FreeBuffer (some ev.moreEventInfo.location)] ∧
    (HandleRunningVm ev.eventType ev.moreEventInfo jobData).state.jobData =
      { hostHandle := jobData.hostHandle
        jobs := jobData.jobs ++
          [{ id := jobData.jobs.length, locationStr := ev.moreEventInfo.location
             joinable := true }] } := by
  simp only [FindEvent.discovers, Bool.and_eq_true, beq_iff_eq, Bool.not_eq_true'] at h
  simp [HandleRunningVm, Exec.andThen, ScopedExit, Exec.finish, h.1, h.2]

/-- The callback on any other event: it starts no thread and leaves the job
vector as it is; its only calls are `Vix_GetProperties` and `Vix_FreeBuffer`. -/
theorem HandleRunningVm_of_not_discovers (ev : FindEvent) (jobData : JobData)
    (h : ev.discovers = false) :
    ((HandleRunningVm ev.eventType ev.moreEventInfo jobData).calls = [] ∨
      (HandleRunningVm ev.eventType ev.moreEventInfo jobData).calls =
        [Call.Vix_GetProperties ev.moreEventInfo.err, Call.Vix_FreeBuffer none]) ∧
    (HandleRunningVm ev.eventType ev.moreEventInfo jobData).state.jobData = jobData := by
  simp only [FindEvent.discovers, Bool.and_eq_false_iff, beq_eq_false_iff_ne, ne_eq,
    Bool.not_eq_false'] at h
  by_cases ht : ev.eventType = VIX_EVENTTYPE_FIND_ITEM
  · have hf : VIX_FAILED ev.moreEventInfo.err = true := by
      rcases h with h | h
      · exact absurd ht h
      · exact h
    simp [HandleRunningVm, Exec.andThen, ScopedExit, Exec.finish, ht, hf]
  · simp [HandleRunningVm, ht]

/-- Delivery of a list of events: the threads started have the consecutive ids
that follow the size of the vector, one per discovering event; the vector grows
by exactly these threads, all joinable; the host handle is unchanged. -/
theorem deliverEvents_spec (evs : List FindEvent) (jobData : JobData) :
    started (deliverEvents evs jobData).1 =
      List.range' jobData.jobs.length (evs.countP FindEvent.discovers) ∧
    joined (deliverEvents evs jobData).1 = [] ∧
    disconnected (deliverEvents evs jobData).1 = [] ∧
    (deliverEvents evs jobData).1.any Call.isFindItems = false ∧
    Call.terminate ∉ (deliverEvents evs jobData).1 ∧
    (deliverEvents evs jobData).2.hostHandle = jobData.hostHandle ∧
    (∃ new : List Thread, (deliverEvents evs jobData).2.jobs = jobData.jobs ++ new ∧
      new.map Thread.id = List.range' jobData.jobs.length (evs.countP FindEvent.discovers) ∧
      ∀ t ∈ new, t.joinable = true) := by
  induction evs generalizing jobData with
  | nil => simp [deliverEvents, started, joined, disconnected]
  | cons ev evs ih =>
    simp only [deliverEvents]
    cases hd : ev.discovers
    · obtain ⟨hc, hs⟩ := HandleRunningVm_of_not_discovers ev jobData hd
      obtain ⟨i1, i2, i3, i4, i5, i6, new, i7, i8, i9⟩ := ih jobData
      have hcount : (ev :: evs).countP FindEvent.discovers = evs.countP FindEvent.discovers := by
        simp [List.countP_cons, hd]
      rw [hs, hcount]
      rcases hc with hc | hc <;> rw [hc] <;>
        simp [started, joined, disconnected, Call.isFindItems, i1, i2, i3, i4, i5, i6] <;>
        exact ⟨new, i7, i8, i9⟩
    · obtain ⟨hc, hs⟩ := HandleRunningVm_of_discovers ev jobData hd
      obtain ⟨i1, i2, i3, i4, i5, i6, new, i7, i8, i9⟩ := ih
        { hostHandle := jobData.hostHandle
          jobs := jobData.jobs ++
            [{ id := jobData.jobs.length, locationStr := ev.moreEventInfo.location
               joinable := true }] }
      have hcount : (ev :: evs).countP FindEvent.discovers =
          evs.countP FindEvent.discovers + 1 := by
        simp [List.countP_cons, hd]
      rw [hs, hc, hcount]
      simp only [List.length_append, List.length_singleton] at i1 i8
      refine ⟨?_, ?_, ?_, ?_, ?_, i6, ?_⟩
      · simp [started, i1, List.range'_succ]
      · simp [joined, i2]
      · simp [disconnected, i3]
      · simp [Call.isFindItems, i4]
      · simp [i5]
      · refine ⟨{ id := jobData.jobs.length, locationStr := ev.moreEventInfo.location
                  joinable := true } :: new, ?_, ?_, ?_⟩
        · simp [i7]
        · simp [i8, List.range'_succ]
        · intro t ht
          rcases List.mem_cons.1 ht with h | h
          · rw [h]
          · exact i9 t h

/-- The join loop joins the threads of the vector in order and leaves none of
them joinable. -/
theorem joinAll_spec (ts : List Thread) :
    (joinAll ts).1 = ts.map (fun t => Call.threadJoin t.id) ∧
    (joinAll ts).2.any (fun t => t.joinable) = false := by
  induction ts with
  | nil => simp [joinAll]
  | cons t ts ih => simp [joinAll, ih.1, ih.2]

theorem joined_map_threadJoin (ts : List Thread) :
    joined (ts.map (fun t => Call.threadJoin t.id)) = ts.map Thread.id := by
  induction ts with
  | nil => rfl
  | cons t ts ih => simp [joined, ih]

theorem started_map_threadJoin (ts : List Thread) :
    started (ts.map (fun t => Call.threadJoin t.id)) = [] := by
  induction ts with
  | nil => rfl
  | cons t ts ih => simp [started, ih]

theorem disconnected_map_threadJoin (ts : List Thread) :
    disconnected (ts.map (fun t => Call.threadJoin t.id)) = [] := by
  induction ts with
  | nil => rfl
  | cons t ts ih => simp [disconnected, ih]

/-! ## The pipeline: closed form of its trace -/

/-- Trace of the pipeline when the connect step fails. -/
theorem shutdown_of_connect_failed (w : World) (h : VIX_FAILED w.connectErr = true) :
    (ShutdownAllVirtualMachines w).calls =
      [Call.VixHost_Connect w.connectJob,
       Call.VixJob_Wait w.connectJob w.connectHost w.connectErr,
       Call.Vix_ReleaseHandle w.connectJob,
       Call.VixHost_Disconnect w.hostHandle] ∧
    (ShutdownAllVirtualMachines w).status = Status.returned := by
  simp [ShutdownAllVirtualMachines, connectBlock, Exec.andThen, ScopedExit, Exec.finish, h,
    World.hostHandle]

/-- Trace of the pipeline when connect and enumeration succeed. -/
theorem shutdown_of_find_ok (w : World) (hc : VIX_FAILED w.connectErr = false)
    (hf : VIX_FAILED w.findErr = false) :
    (ShutdownAllVirtualMachines w).calls =
      [Call.VixHost_Connect w.connectJob,
       Call.VixJob_Wait w.connectJob w.connectHost w.connectErr,
       Call.Vix_ReleaseHandle w.connectJob,
       Call.VixHost_FindItems w.hostHandle w.findJob] ++ w.callbackCalls ++
      [Call.VixJob_Wait w.findJob none w.findErr, Call.Vix_ReleaseHandle w.findJob] ++
      w.threads.map (fun t => Call.threadJoin t.id) ++
      [Call.VixHost_Disconnect w.hostHandle] ∧
    (ShutdownAllVirtualMachines w).status = Status.returned := by
  have hj := (joinAll_spec w.threads).2
  have hj1 := (joinAll_spec w.threads).1
  simp only [World.threads, World.hostHandle] at hj hj1
  simp [ShutdownAllVirtualMachines, connectBlock, findBlock, joinBlock, ThreadsExit,
    Exec.andThen, ScopedExit, Exec.finish, hc, hf, World.hostHandle, World.threads,
    World.callbackCalls, hj, hj1]

/-- Trace of the pipeline when connect succeeds and the enumeration fails: the
function returns at main.cpp 159, and the destructor of `jobData` meets the
threads that the callbacks started. -/
theorem shutdown_of_find_failed (w : World) (hc : VIX_FAILED w.connectErr = false)
    (hf : VIX_FAILED w.findErr = true) :
    (ShutdownAllVirtualMachines w).calls =
      [Call.VixHost_Connect w.connectJob,
       Call.VixJob_Wait w.connectJob w.connectHost w.connectErr,
       Call.Vix_ReleaseHandle w.connectJob,
       Call.VixHost_FindItems w.hostHandle w.findJob] ++ w.callbackCalls ++
      [Call.VixJob_Wait w.findJob none w.findErr, Call.Vix_ReleaseHandle w.findJob] ++
      (if w.threads.any (fun t => t.joinable) then [Call.terminate]
       else [Call.VixHost_Disconnect w.hostHandle]) ∧
    (ShutdownAllVirtualMachines w).status =
      (if w.threads.any (fun t => t.joinable) then Status.terminated else Status.returned) := by
  cases ha : w.threads.any (fun t => t.joinable) <;>
    simp only [World.threads, World.hostHandle] at ha <;>
    simp [ShutdownAllVirtualMachines, connectBlock, findBlock, ThreadsExit,
      Exec.andThen, ScopedExit, Exec.finish, hc, hf, World.hostHandle, World.threads,
      World.callbackCalls, ha]

/-- Ids of the threads of the job vector after the enumeration, and the threads
started by the callbacks: the first `N` numbers, where `N` discovery events
succeeded. -/
theorem threads_spec (w : World) :
    started w.callbackCalls = List.range (w.events.countP FindEvent.discovers) ∧
    w.threads.map Thread.id = List.range (w.events.countP FindEvent.discovers) ∧
    w.threads.length = w.events.countP FindEvent.discovers ∧
    (w.threads.any (fun t => t.joinable) =
      decide (0 < w.events.countP FindEvent.discovers)) := by
  obtain ⟨i1, _, _, _, _, _, new, i7, i8, i9⟩ :=
    deliverEvents_spec w.events { hostHandle := w.hostHandle, jobs := [] }
  simp only [List.length_nil, List.nil_append] at i1 i7 i8
  have hlen : new.length = w.events.countP FindEvent.discovers := by
    have := congrArg List.length i8
    simpa using this
  refine ⟨?_, ?_, ?_, ?_⟩
  · rw [World.callbackCalls, i1, List.range_eq_range']
  · rw [World.threads, i7, i8, List.range_eq_range']
  · rw [World.threads, i7, hlen]
  · rw [World.threads, i7, ← hlen]
    cases new with
    | nil => simp
    | cons t ts => simp [i9 t (List.mem_cons_self t ts)]

/-- The pipeline ends in `std::terminate` exactly when connect succeeds, the
enumeration wait fails and at least one VM was discovered.  In every other case
it returns, its last call is the only `VixHost_Disconnect`, and before that call
it has joined exactly the threads that were started. -/
theorem shutdown_status_spec (w : World) :
    ((ShutdownAllVirtualMachines w).status = Status.terminated ↔
      (VIX_FAILED w.connectErr = false ∧ VIX_FAILED w.findErr = true ∧
        0 < w.events.countP FindEvent.discovers)) ∧
    ((ShutdownAllVirtualMachines w).status ≠ Status.terminated →
      (ShutdownAllVirtualMachines w).status = Status.returned ∧
      disconnected (ShutdownAllVirtualMachines w).calls = [w.hostHandle] ∧
      ∃ pre, (ShutdownAllVirtualMachines w).calls =
          pre ++ [Call.VixHost_Disconnect w.hostHandle] ∧
        joined pre = started pre) := by
  obtain ⟨t1, t2, _, t4⟩ := threads_spec w
  obtain ⟨_, d2, d3, _, _, _, _⟩ :=
    deliverEvents_spec w.events { hostHandle := w.hostHandle, jobs := [] }
  have hj : joined w.callbackCalls = [] := d2
  have hd : disconnected w.callbackCalls = [] := d3
  cases hc : VIX_FAILED w.connectErr
  · cases hf : VIX_FAILED w.findErr
    · obtain ⟨e1, e2⟩ := shutdown_of_find_ok w hc hf
      refine ⟨by simp [e2], fun _ => ⟨e2, ?_, ?_⟩⟩
      · rw [e1]
        simp [disconnected_append, disconnected, hd, disconnected_map_threadJoin]
      · exact ⟨_, e1, by
          simp [joined_append, joined, hj, joined_map_threadJoin, t2, started_append,
            started, t1, started_map_threadJoin]⟩
    · obtain ⟨e1, e2⟩ := shutdown_of_find_failed w hc hf
      by_cases hn : 0 < w.events.countP FindEvent.discovers
      · have ha : w.threads.any (fun t => t.joinable) = true := by rw [t4]; simpa using hn
        rw [ha] at e2
        simp [e2, hn]
      · have ha : w.threads.any (fun t => t.joinable) = false := by rw [t4]; simpa using hn
        have hz : w.events.countP FindEvent.discovers = 0 := Nat.eq_zero_of_not_pos hn
        rw [ha] at e1 e2
        simp only [Bool.false_eq_true, if_false] at e1 e2
        refine ⟨by simp [e2, hn], fun _ => ⟨e2, ?_, ?_⟩⟩
        · rw [e1]
          simp [disconnected_append, disconnected, hd]
        · exact ⟨_, e1, by simp [joined_append, joined, hj, started_append, started, t1, hz]⟩
  · obtain ⟨e1, e2⟩ := shutdown_of_connect_failed w hc
    refine ⟨by simp [e2], fun _ => ⟨e2, ?_, ?_⟩⟩
    · rw [e1]
      simp [disconnected]
    · exact ⟨[Call.VixHost_Connect w.connectJob,
        Call.VixJob_Wait w.connectJob w.connectHost w.connectErr,
        Call.Vix_ReleaseHandle w.connectJob], e1, by simp [joined, started]⟩

/-! ## Runs of the process -/

/-- Taking a call from a job thread: the thread exists, and the set of threads
is unchanged. -/
theorem popJob_spec (js : List (Nat × List Call)) (id : Nat) (c : Call)
    (js2 : List (Nat × List Call)) (h : Sys.popJob js id = some (c, js2)) :
    id ∈ js.map Prod.fst ∧ js2.map Prod.fst = js.map Prod.fst := by
  induction js generalizing js2 with
  | nil => simp [Sys.popJob] at h
  | cons j js ih =>
    obtain ⟨i, cs⟩ := j
    by_cases hi : i = id
    · cases cs with
      | nil => simp [Sys.popJob, hi] at h
      | cons c1 rest =>
        simp only [Sys.popJob, hi, if_true, Option.some.injEq, Prod.mk.injEq] at h
        obtain ⟨_, h2⟩ := h
        subst h2
        simp [hi]
    · cases hp : Sys.popJob js id with
      | none => simp [Sys.popJob, hi, hp] at h
      | some p =>
        obtain ⟨c1, js3⟩ := p
        simp only [Sys.popJob, hi, if_false, hp, Option.some.injEq, Prod.mk.injEq] at h
        obtain ⟨h1, h2⟩ := h
        subst h1 h2
        obtain ⟨m1, m2⟩ := ih js3 hp
        simp [m1, m2]

/-- A step of the main thread emits the next call of the main thread; what is
left to the main thread was left before; a thread that exists afterwards existed
before or was started by this very step. -/
theorem step_main_spec (w : World) (s s2 : Sys) (e : Tid × Call)
    (h : Sys.step w s Tid.main = some (e, s2)) :
    e.1 = Tid.main ∧ e.2 ∈ s.main ∧ (∀ c ∈ s2.main, c ∈ s.main) ∧
    (∀ id ∈ s2.jobs.map Prod.fst,
      id ∈ s.jobs.map Prod.fst ∨ ∃ loc, e.2 = Call.threadStart id loc) := by
  obtain ⟨m, js⟩ := s
  cases m with
  | nil => simp [Sys.step] at h
  | cons c rest =>
    cases c <;> simp only [Sys.step, Option.some.injEq, Prod.mk.injEq] at h
    case threadJoin id =>
      by_cases hf : Sys.finished js id = true
      · simp only [hf, if_true, Option.some.injEq, Prod.mk.injEq] at h
        obtain ⟨h1, h2⟩ := h
        subst h1 h2
        exact ⟨rfl, by simp, fun c hc => List.mem_cons_of_mem _ hc, fun i hi => Or.inl hi⟩
      · simp [hf] at h
    case threadStart id loc =>
      obtain ⟨h1, h2⟩ := h
      subst h1 h2
      refine ⟨rfl, by simp, fun c hc => List.mem_cons_of_mem _ hc, ?_⟩
      intro i hi
      simp only [List.map_append, List.map_cons, List.map_nil, List.mem_append,
        List.mem_singleton] at hi
      rcases hi with hi | hi
      · exact Or.inl hi
      · exact Or.inr ⟨loc, by rw [hi]⟩
    all_goals
      obtain ⟨h1, h2⟩ := h
      subst h1 h2
      first
        | exact ⟨rfl, by simp, fun c hc => List.mem_cons_of_mem _ hc, fun i hi => Or.inl hi⟩
        | exact ⟨rfl, by simp, by simp, by simp⟩

/-- A step of a job thread emits a call of that thread, which exists; the main
thread and the set of threads are unchanged. -/
theorem step_job_spec (w : World) (s s2 : Sys) (id : Nat) (e : Tid × Call)
    (h : Sys.step w s (Tid.job id) = some (e, s2)) :
    e.1 = Tid.job id ∧ s2.main = s.main ∧ id ∈ s.jobs.map Prod.fst ∧
    s2.jobs.map Prod.fst = s.jobs.map Prod.fst := by
  cases hp : Sys.popJob s.jobs id with
  | none => simp [Sys.step, hp] at h
  | some p =>
    obtain ⟨c, js⟩ := p
    simp only [Sys.step, hp, Option.some.injEq, Prod.mk.injEq] at h
    obtain ⟨h1, h2⟩ := h
    subst h1 h2
    obtain ⟨m1, m2⟩ := popJob_spec s.jobs id c js hp
    exact ⟨rfl, rfl, m1, m2⟩

/-- A run that makes at least one step. -/
theorem run_cons (w : World) (s : Sys) (t : Tid) (ts : List Tid) (tr : List (Tid × Call))
    (h : Sys.run w s (t :: ts) = some tr) :
    ∃ e s2 tr2, Sys.step w s t = some (e, s2) ∧ Sys.run w s2 ts = some tr2 ∧ tr = e :: tr2 := by
  cases hs : Sys.step w s t with
  | none => simp [Sys.run, hs] at h
  | some p =>
    obtain ⟨e, s2⟩ := p
    cases hr : Sys.run w s2 ts with
    | none => simp [Sys.run, hs, hr] at h
    | some tr2 =>
      simp only [Sys.run, hs, hr, Option.some.injEq] at h
      exact ⟨e, s2, tr2, rfl, hr, h.symm⟩

/-- Every call of the main thread in a run is one of the calls the main thread
had to make. -/
theorem run_main_mem (w : World) (sched : List Tid) (s : Sys) (tr : List (Tid × Call))
    (h : Sys.run w s sched = some tr) (c : Call) (hc : (Tid.main, c) ∈ tr) : c ∈ s.main := by
  induction sched generalizing s tr with
  | nil =>
    simp only [Sys.run, Option.some.injEq] at h
    subst h
    simp at hc
  | cons t ts ih =>
    obtain ⟨e, s2, tr2, hs, hr, htr⟩ := run_cons w s t ts tr h
    subst htr
    rcases List.mem_cons.1 hc with hc | hc
    · cases t with
      | main =>
        obtain ⟨_, h2, _, _⟩ := step_main_spec w s s2 e hs
        rw [← hc] at h2
        exact h2
      | job id =>
        obtain ⟨h1, _, _, _⟩ := step_job_spec w s s2 id e hs
        rw [← hc] at h1
        simp at h1
    · have hmem := ih s2 tr2 hr hc
      cases t with
      | main =>
        obtain ⟨_, _, h3, _⟩ := step_main_spec w s s2 e hs
        exact h3 c hmem
      | job id =>
        obtain ⟨_, h2, _, _⟩ := step_job_spec w s s2 id e hs
        rw [h2] at hmem
        exact hmem

/-- A call of job `id` at position `k` of a run: the thread existed at the
beginning of the run, or the main thread started it at an earlier position. -/
theorem run_job_after_start (w : World) (sched : List Tid) (s : Sys) (tr : List (Tid × Call))
    (h : Sys.run w s sched = some tr) (k id : Nat) (c : Call)
    (hk : tr[k]? = some (Tid.job id, c)) :
    id ∈ s.jobs.map Prod.fst ∨
      ∃ k2 loc, k2 < k ∧ tr[k2]? = some (Tid.main, Call.threadStart id loc) := by
  induction sched generalizing s tr k with
  | nil =>
    simp only [Sys.run, Option.some.injEq] at h
    subst h
    simp at hk
  | cons t ts ih =>
    obtain ⟨e, s2, tr2, hs, hr, htr⟩ := run_cons w s t ts tr h
    subst htr
    cases k with
    | zero =>
      simp only [List.getElem?_cons_zero, Option.some.injEq] at hk
      cases t with
      | main =>
        obtain ⟨h1, _, _, _⟩ := step_main_spec w s s2 e hs
        rw [hk] at h1
        simp at h1
      | job i =>
        obtain ⟨h1, _, h3, _⟩ := step_job_spec w s s2 i e hs
        rw [hk] at h1
        simp only [Tid.job.injEq] at h1
        rw [h1]
        exact Or.inl h3
    | succ k =>
      simp only [List.getElem?_cons_succ] at hk
      rcases ih s2 tr2 hr k hk with hin | ⟨k2, loc, hlt, hget⟩
      · cases t with
        | main =>
          obtain ⟨h1, _, _, h4⟩ := step_main_spec w s s2 e hs
          rcases h4 id hin with h5 | ⟨loc, h5⟩
          · exact Or.inl h5
          · refine Or.inr ⟨0, loc, Nat.succ_pos k, ?_⟩
            simp only [List.getElem?_cons_zero, Option.some.injEq]
            exact Prod.ext h1 h5
        | job i =>
          obtain ⟨_, _, _, h4⟩ := step_job_spec w s s2 i e hs
          rw [h4] at hin
          exact Or.inl hin
      · exact Or.inr ⟨k2 + 1, loc, Nat.succ_lt_succ hlt, by simpa using hget⟩

/-- A thread start in the calls of the callbacks comes from an event that
discovers a VM at that location. -/
theorem threadStart_mem_deliverEvents (evs : List FindEvent) (jobData : JobData) (id : Nat)
    (loc : String) (h : Call.threadStart id loc ∈ (deliverEvents evs jobData).1) :
    ∃ ev ∈ evs, ev.discovers = true ∧ ev.moreEventInfo.location = loc := by
  induction evs generalizing jobData with
  | nil => simp [deliverEvents] at h
  | cons ev evs ih =>
    simp only [deliverEvents, List.mem_append] at h
    rcases h with h | h
    · cases hd : ev.discovers
      · rcases (HandleRunningVm_of_not_discovers ev jobData hd).1 with hc | hc <;>
          rw [hc] at h <;> simp at h
      · rw [(HandleRunningVm_of_discovers ev jobData hd).1] at h
        simp only [List.mem_cons, Call.threadStart.injEq, List.mem_singleton, reduceCtorEq,
          false_or, or_false, List.not_mem_nil] at h
        exact ⟨ev, List.mem_cons_self ev evs, hd, h.2.symm⟩
    · obtain ⟨ev2, hm, hd, hl⟩ := ih _ h
      exact ⟨ev2, List.mem_cons_of_mem ev hm, hd, hl⟩

/-- A thread start among the calls of the pipeline: the connect step succeeded,
and the start is a call of a discovery callback. -/
theorem threadStart_mem_shutdown (w : World) (id : Nat) (loc : String)
    (h : Call.threadStart id loc ∈ (ShutdownAllVirtualMachines w).calls) :
    VIX_FAILED w.connectErr = false ∧ Call.threadStart id loc ∈ w.callbackCalls := by
  cases hc : VIX_FAILED w.connectErr
  · refine ⟨rfl, ?_⟩
    cases hf : VIX_FAILED w.findErr
    · rw [(shutdown_of_find_ok w hc hf).1] at h
      simpa using h
    · rw [(shutdown_of_find_failed w hc hf).1] at h
      cases ha : w.threads.any (fun t => t.joinable) <;> simpa [ha] using h
  · rw [(shutdown_of_connect_failed w hc).1] at h
    simp at h

/-! ## The pipeline never blocks -/

theorem ready_mono (cs : List Call) (a b : List Nat) (hab : ∀ i ∈ a, i ∈ b)
    (h : Sys.ready a cs = true) : Sys.ready b cs = true := by
  induction cs generalizing a b with
  | nil => rfl
  | cons c cs ih =>
    cases c <;> simp only [Sys.ready, Bool.and_eq_true, decide_eq_true_eq] at h ⊢
    case threadStart i loc =>
      refine ih (i :: a) (i :: b) ?_ h
      intro x hx
      rcases List.mem_cons.1 hx with hx | hx
      · exact List.mem_cons.2 (Or.inl hx)
      · exact List.mem_cons.2 (Or.inr (hab x hx))
    case threadJoin i => exact ⟨hab i h.1, ih a b hab h.2⟩
    all_goals exact ih a b hab h

theorem ready_append (a b : List Call) (ids : List Nat) (ha : Sys.ready ids a = true)
    (hb : Sys.ready (started a ++ ids) b = true) : Sys.ready ids (a ++ b) = true := by
  induction a generalizing ids with
  | nil => simpa [started] using hb
  | cons c cs ih =>
    cases c <;>
      simp only [Sys.ready, List.cons_append, Bool.and_eq_true, decide_eq_true_eq, started]
        at ha hb ⊢
    case threadStart i loc =>
      refine ih (i :: ids) ha (ready_mono b _ _ ?_ hb)
      intro x hx
      simp only [List.cons_append, List.mem_cons, List.mem_append] at hx ⊢
      tauto
    case threadJoin i => exact ⟨ha.1, ih ids ha.2 hb⟩
    all_goals exact ih ids ha hb

theorem ready_of_joined_nil (cs : List Call) (ids : List Nat) (h : joined cs = []) :
    Sys.ready ids cs = true := by
  induction cs generalizing ids with
  | nil => rfl
  | cons c cs ih =>
    cases c <;> simp only [Sys.ready, joined] at h ⊢
    case threadJoin i => simp at h
    all_goals exact ih _ h

theorem ready_joins (ts : List Thread) (ids : List Nat) (tail : List Call)
    (h : ∀ t ∈ ts, t.id ∈ ids) (htail : joined tail = []) :
    Sys.ready ids (ts.map (fun t => Call.threadJoin t.id) ++ tail) = true := by
  induction ts with
  | nil => simpa using ready_of_joined_nil tail ids htail
  | cons t ts ih =>
    simp only [List.map_cons, List.cons_append, Sys.ready, Bool.and_eq_true, decide_eq_true_eq]
    exact ⟨h t (List.mem_cons_self t ts), ih (fun x hx => h x (List.mem_cons_of_mem t hx))⟩

/-- In the calls of the pipeline every join is preceded by the start of the
joined thread. -/
theorem ready_shutdown (w : World) :
    Sys.ready [] (ShutdownAllVirtualMachines w).calls = true := by
  obtain ⟨t1, t2, _, _⟩ := threads_spec w
  have hcb : joined w.callbackCalls = [] :=
    (deliverEvents_spec w.events { hostHandle := w.hostHandle, jobs := [] }).2.1
  cases hc : VIX_FAILED w.connectErr
  · cases hf : VIX_FAILED w.findErr
    · rw [(shutdown_of_find_ok w hc hf).1, List.append_assoc]
      refine ready_append _ _ _ (ready_of_joined_nil _ _ ?_) (ready_joins _ _ _ ?_ rfl)
      · simp [joined_append, joined, hcb]
      · intro t ht
        have : t.id ∈ w.threads.map Thread.id := List.mem_map_of_mem Thread.id ht
        simpa [started_append, started, t1, ← t2] using this
    · rw [(shutdown_of_find_failed w hc hf).1]
      refine ready_of_joined_nil _ _ ?_
      cases ha : w.threads.any (fun t => t.joinable) <;> simp [joined_append, joined, hcb]
  · rw [(shutdown_of_connect_failed w hc).1]
    rfl

/-- A thread that exists and has no call left to take has run to its end. -/
theorem finished_of_popJob_none (js : List (Nat × List Call)) (id : Nat)
    (hmem : id ∈ js.map Prod.fst) (h : Sys.popJob js id = none) :
    Sys.finished js id = true := by
  induction js with
  | nil => simp at hmem
  | cons j js ih =>
    obtain ⟨i, cs⟩ := j
    by_cases hi : i = id
    · cases cs with
      | nil => simp [Sys.finished, hi]
      | cons c rest => simp [Sys.popJob, hi] at h
    · have hmem2 : id ∈ js.map Prod.fst := by
        simp only [List.map_cons, List.mem_cons] at hmem
        rcases hmem with hm | hm
        · exact absurd hm.symm hi
        · exact hm
      have hp : Sys.popJob js id = none := by
        cases hq : Sys.popJob js id with
        | none => rfl
        | some q => simp [Sys.popJob, hi, hq] at h
      have := ih hmem2 hp
      simp only [Sys.finished, List.any_cons, Bool.or_eq_true] at this ⊢
      exact Or.inr this

/-- While the main thread has a call left and every join is ready, some thread
can step. -/
theorem step_of_ready (w : World) (s : Sys)
    (hr : Sys.ready (s.jobs.map Prod.fst) s.main = true) (hm : s.main ≠ []) :
    ∃ t, (Sys.step w s t).isSome = true := by
  obtain ⟨m, js⟩ := s
  cases m with
  | nil => exact absurd rfl hm
  | cons c rest =>
    cases c
    case threadJoin id =>
      simp only [Sys.ready, Bool.and_eq_true, decide_eq_true_eq] at hr
      cases hp : Sys.popJob js id with
      | none =>
        refine ⟨Tid.main, ?_⟩
        simp [Sys.step, finished_of_popJob_none js id hr.1 hp]
      | some q =>
        refine ⟨Tid.job id, ?_⟩
        simp [Sys.step, hp]
    all_goals exact ⟨Tid.main, by simp [Sys.step]⟩

/-- Steps keep every join ready. -/
theorem step_ready (w : World) (s s2 : Sys) (t : Tid) (e : Tid × Call)
    (hr : Sys.ready (s.jobs.map Prod.fst) s.main = true)
    (h : Sys.step w s t = some (e, s2)) :
    Sys.ready (s2.jobs.map Prod.fst) s2.main = true := by
  cases t with
  | job id =>
    obtain ⟨_, h2, _, h4⟩ := step_job_spec w s s2 id e h
    rw [h2, h4]
    exact hr
  | main =>
    obtain ⟨m, js⟩ := s
    cases m with
    | nil => simp [Sys.step] at h
    | cons c rest =>
      cases c <;> simp only [Sys.step, Option.some.injEq, Prod.mk.injEq] at h
      case threadJoin id =>
        by_cases hf : Sys.finished js id = true
        · simp only [hf, if_true, Option.some.injEq, Prod.mk.injEq] at h
          obtain ⟨_, h2⟩ := h
          subst h2
          simp only [Sys.ready, Bool.and_eq_true, decide_eq_true_eq] at hr
          exact hr.2
        · simp [hf] at h
      case threadStart id loc =>
        obtain ⟨_, h2⟩ := h
        subst h2
        simp only [Sys.ready] at hr
        refine ready_mono rest _ _ ?_ hr
        intro x hx
        simp only [List.mem_cons, List.map_append, List.map_cons, List.map_nil,
          List.mem_append, List.mem_singleton] at hx ⊢
        tauto
      case terminate =>
        obtain ⟨_, h2⟩ := h
        subst h2
        rfl
      all_goals
        obtain ⟨_, h2⟩ := h
        subst h2
        simpa [Sys.ready] using hr

/-- The process never blocks: in every state that a run reaches from the entry
of `ShutdownAllVirtualMachines`, some thread can step as long as the main thread
has a call left to make. -/
theorem run_never_blocks (w : World) (sched : List Tid) (s2 : Sys)
    (h : Sys.after w (Sys.init w) sched = some s2) (hm : s2.main ≠ []) :
    ∃ t, (Sys.step w s2 t).isSome = true := by
  have key : ∀ (sched : List Tid) (s : Sys),
      Sys.ready (s.jobs.map Prod.fst) s.main = true → Sys.after w s sched = some s2 →
      Sys.ready (s2.jobs.map Prod.fst) s2.main = true := by
    intro sched
    induction sched with
    | nil =>
      intro s hr ha
      simp only [Sys.after, Option.some.injEq] at ha
      rw [← ha]
      exact hr
    | cons t ts ih =>
      intro s hr ha
      cases hs : Sys.step w s t with
      | none => simp [Sys.after, hs] at ha
      | some p =>
        obtain ⟨e, s3⟩ := p
        simp only [Sys.after, hs] at ha
        exact ih s3 (step_ready w s s3 t e hr hs) ha
  exact step_of_ready w s2 (key sched (Sys.init w) (ready_shutdown w) h) hm

/-! ## Claims about one power-off job -/

/-- C8: a power-off job whose open step fails never issues `VixVM_PowerOff`.
After the failed wait it only releases the open-job handle and the content of
`vmHandle`, and returns. -/
theorem open_failure_skips_powerOff (hostHandle : VixHandle) (locationStr : String)
    (id : Nat) (r : JobResponses) (h : VIX_FAILED r.openErr = true) :
    (∀ vm job, Call.VixVM_PowerOff vm job ∉ (powerOffJob hostHandle locationStr id r).calls) ∧
    (powerOffJob hostHandle locationStr id r).calls.any Call.isPowerOff = false ∧
    (powerOffJob hostHandle locationStr id r).calls =
      [Call.VixVM_Open hostHandle locationStr r.openJob,
       Call.VixJob_Wait r.openJob r.openVm r.openErr,
       Call.Vix_ReleaseHandle r.openJob,
       Call.Vix_ReleaseHandle (r.openVm.getD VIX_INVALID_HANDLE)] ∧
    (powerOffJob hostHandle locationStr id r).status = Status.returned := by
  rw [powerOffJob_calls_of_open_failed hostHandle locationStr id r h]
  refine ⟨?_, ?_, rfl, powerOffJob_status hostHandle locationStr id r⟩
  · intro vm job hmem
    simp at hmem
  · simp [Call.isPowerOff]

/-- Witness of C8: the job of VM `a.vmx` whose open wait fails with error 5. -/
theorem open_failure_skips_powerOff_witness :
    VIX_FAILED respOpenFails.openErr = true ∧
    (powerOffJob 2 "a.vmx" 0 respOpenFails).calls.any Call.isPowerOff = false :=
  ⟨by decide, (open_failure_skips_powerOff 2 "a.vmx" 0 respOpenFails (by decide)).2.1⟩

/-- C4, as stated, fails: when both steps succeed the job acquires the handles
11 (open job), 12 (VM), 13 (power-off job) in this order and releases them in the
order 11, 13, 12, which is not the reverse of the acquisition order. -/
theorem release_order_counterexample :
    acquired (powerOffJob 2 "a.vmx" 0 respOk).calls = [11, 12, 13] ∧
    released (powerOffJob 2 "a.vmx" 0 respOk).calls = [11, 13, 12] ∧
    released (powerOffJob 2 "a.vmx" 0 respOk).calls ≠
      (acquired (powerOffJob 2 "a.vmx" 0 respOk).calls).reverse := by
  decide

/-- C4, amended: on every exit path every acquired handle is released, each when
the scope that holds it is left.  The open-job handle is released first, before
any power-off request; the power-off-job handle follows when the power-off was
requested; the content of `vmHandle` is released last.  When both steps succeed
and the open wait yields the VM handle `vm`, the acquisitions are open job, VM,
power-off job and the releases are open job, power-off job, VM. -/
theorem release_order (hostHandle : VixHandle) (locationStr : String) (id : Nat)
    (r : JobResponses) :
    (∀ h ∈ acquired (powerOffJob hostHandle locationStr id r).calls,
      h ∈ released (powerOffJob hostHandle locationStr id r).calls) ∧
    released (powerOffJob hostHandle locationStr id r).calls =
      (if VIX_FAILED r.openErr then [r.openJob, r.openVm.getD VIX_INVALID_HANDLE]
       else [r.openJob, r.powerJob, r.openVm.getD VIX_INVALID_HANDLE]) ∧
    (∃ pre post, (powerOffJob hostHandle locationStr id r).calls =
        pre ++ Call.Vix_ReleaseHandle r.openJob :: post ∧
      released pre = [] ∧ pre.any Call.isPowerOff = false) ∧
    (∀ vm, VIX_FAILED r.openErr = false → r.openVm = some vm →
      acquired (powerOffJob hostHandle locationStr id r).calls = [r.openJob, vm, r.powerJob] ∧
      released (powerOffJob hostHandle locationStr id r).calls = [r.openJob, r.powerJob, vm]) := by
  cases ho : VIX_FAILED r.openErr
  · rw [powerOffJob_calls_of_open_ok hostHandle locationStr id r ho]
    refine ⟨?_, by simp [released], ?_, ?_⟩
    · cases hv : r.openVm <;> simp [acquired, released]
    · exact ⟨[Call.VixVM_Open hostHandle locationStr r.openJob,
        Call.VixJob_Wait r.openJob r.openVm r.openErr], _, rfl, by simp [released],
        by simp [Call.isPowerOff]⟩
    · intro vm _ hv
      simp [acquired, released, hv]
  · rw [powerOffJob_calls_of_open_failed hostHandle locationStr id r ho]
    refine ⟨?_, by simp [released], ?_, ?_⟩
    · cases hv : r.openVm <;> simp [acquired, released]
    · exact ⟨[Call.VixVM_Open hostHandle locationStr r.openJob,
        Call.VixJob_Wait r.openJob r.openVm r.openErr], _, rfl, by simp [released],
        by simp [Call.isPowerOff]⟩
    · intro vm hf
      simp at hf

/-- Witness of C4: the job of VM `a.vmx` for which both steps succeed. -/
theorem release_order_witness :
    VIX_FAILED respOk.openErr = false ∧ respOk.openVm = some 12 ∧
    acquired (powerOffJob 2 "a.vmx" 0 respOk).calls = [11, 12, 13] ∧
    released (powerOffJob 2 "a.vmx" 0 respOk).calls = [11, 13, 12] :=
  ⟨by decide, rfl, (release_order 2 "a.vmx" 0 respOk).2.2.2 12 (by decide) rfl⟩

/-- C5, as stated, fails: a job whose open wait fails and delivers no VM handle
acquires one handle (11, the open job) and makes two release calls, the second
with `VIX_INVALID_HANDLE`. -/
theorem release_count_counterexample :
    acquired (powerOffJob 2 "a.vmx" 0 respOpenFails).calls = [11] ∧
    released (powerOffJob 2 "a.vmx" 0 respOpenFails).calls = [11, VIX_INVALID_HANDLE] ∧
    (released (powerOffJob 2 "a.vmx" 0 respOpenFails).calls).length ≠
      (acquired (powerOffJob 2 "a.vmx" 0 respOpenFails).calls).length := by
  decide

/-- C5, amended: for each outcome of a power-off job, the release calls are the
acquired handles, each exactly once, plus one release of `VIX_INVALID_HANDLE`
when the open wait stored no VM handle.  The job makes two release calls when the
open step fails and three otherwise, so the number of release calls is the
number of acquired handles when the open wait stored a VM handle and one more
when it stored none. -/
theorem release_count (hostHandle : VixHandle) (locationStr : String) (id : Nat)
    (r : JobResponses) :
    (released (powerOffJob hostHandle locationStr id r).calls).Perm
      (acquired (powerOffJob hostHandle locationStr id r).calls ++
        (if r.openVm.isSome then [] else [VIX_INVALID_HANDLE])) ∧
    (released (powerOffJob hostHandle locationStr id r).calls).length =
      (if VIX_FAILED r.openErr then 2 else 3) ∧
    (released (powerOffJob hostHandle locationStr id r).calls).length =
      (acquired (powerOffJob hostHandle locationStr id r).calls).length +
        (if r.openVm.isSome then 0 else 1) := by
  cases ho : VIX_FAILED r.openErr
  · rw [powerOffJob_calls_of_open_ok hostHandle locationStr id r ho]
    cases hv : r.openVm
    · simp [acquired, released]
    · simp only [acquired, released, Option.getD_some, Option.isSome_some, if_true,
        List.append_nil, List.length_cons, List.length_nil]
      refine ⟨?_, by simp, by simp⟩
      exact List.Perm.cons _ (List.Perm.swap _ _ _)
  · rw [powerOffJob_calls_of_open_failed hostHandle locationStr id r ho]
    cases hv : r.openVm <;> simp [acquired, released]

/-! ## Claims about the pipeline -/

/-- C1: every event that discovers a VM (a `FIND_ITEM` event whose location is
retrieved) makes the callback create exactly one job, and no other event creates
one; over an enumeration with `N` such events the jobs created are the jobs
`0 .. N-1`, and when the enumeration wait succeeds the pipeline joins exactly
these jobs, in this order, after the enumeration and before it disconnects and
returns.  `N` is arbitrary (zero, one or more). -/
theorem one_job_per_discovery (w : World) :
    (∀ (ev : FindEvent) (jobData : JobData),
      started (HandleRunningVm ev.eventType ev.moreEventInfo jobData).calls =
        (if ev.discovers then [jobData.jobs.length] else []) ∧
      (HandleRunningVm ev.eventType ev.moreEventInfo jobData).state.jobData.jobs.length =
        jobData.jobs.length + (if ev.discovers then 1 else 0)) ∧
    started w.callbackCalls = List.range (w.events.countP FindEvent.discovers) ∧
    w.threads.map Thread.id = List.range (w.events.countP FindEvent.discovers) ∧
    (VIX_FAILED w.connectErr = false →
      started (ShutdownAllVirtualMachines w).calls =
        List.range (w.events.countP FindEvent.discovers) ∧
      (VIX_FAILED w.findErr = false →
        joined (ShutdownAllVirtualMachines w).calls =
          List.range (w.events.countP FindEvent.discovers) ∧
        (ShutdownAllVirtualMachines w).status = Status.returned ∧
        ∃ pre, (ShutdownAllVirtualMachines w).calls =
            pre ++ (List.range (w.events.countP FindEvent.discovers)).map Call.threadJoin ++
              [Call.VixHost_Disconnect w.hostHandle] ∧
          joined pre = [] ∧
          started pre = List.range (w.events.countP FindEvent.discovers))) := by
  obtain ⟨t1, t2, _, _⟩ := threads_spec w
  have hjoins : w.threads.map (fun t => Call.threadJoin t.id) =
      (List.range (w.events.countP FindEvent.discovers)).map Call.threadJoin := by
    rw [← t2, List.map_map]
    rfl
  have hcb : joined w.callbackCalls = [] :=
    (deliverEvents_spec w.events { hostHandle := w.hostHandle, jobs := [] }).2.1
  refine ⟨?_, t1, t2, ?_⟩
  · intro ev jobData
    cases hd : ev.discovers
    · obtain ⟨hc, hs⟩ := HandleRunningVm_of_not_discovers ev jobData hd
      rw [hs]
      rcases hc with hc | hc <;> rw [hc] <;> simp [started]
    · obtain ⟨hc, hs⟩ := HandleRunningVm_of_discovers ev jobData hd
      rw [hs, hc]
      simp [started]
  · intro hc
    cases hf : VIX_FAILED w.findErr
    · obtain ⟨e1, e2⟩ := shutdown_of_find_ok w hc hf
      refine ⟨?_, ?_⟩
      · rw [e1]
        simp [started_append, started, t1, started_map_threadJoin]
      · intro _
        refine ⟨?_, e2, ?_⟩
        · rw [e1]
          simp [joined_append, joined, hcb, joined_map_threadJoin, t2]
        · refine ⟨[Call.VixHost_Connect w.connectJob,
              Call.VixJob_Wait w.connectJob w.connectHost w.connectErr,
              Call.Vix_ReleaseHandle w.connectJob,
              Call.VixHost_FindItems w.hostHandle w.findJob] ++ w.callbackCalls ++
              [Call.VixJob_Wait w.findJob none w.findErr, Call.Vix_ReleaseHandle w.findJob],
            ?_, ?_, ?_⟩
          · rw [e1, hjoins]
          · simp [joined_append, joined, hcb]
          · simp [started_append, started, t1]
    · obtain ⟨e1, _⟩ := shutdown_of_find_failed w hc hf
      refine ⟨?_, ?_⟩
      · rw [e1]
        cases ha : w.threads.any (fun t => t.joinable) <;>
          simp [started_append, started, t1]
      · intro h
        simp at h

/-- Witness of C1: two VMs are discovered among four events and the enumeration
succeeds; the jobs 0 and 1 are created and joined. -/
theorem one_job_per_discovery_witness :
    VIX_FAILED (worldWith [foundVm "a.vmx", ⟨2, ⟨0, "x"⟩⟩, ⟨8, ⟨7, "y"⟩⟩, foundVm "b.vmx"] 0).connectErr
      = false ∧
    VIX_FAILED (worldWith [foundVm "a.vmx", ⟨2, ⟨0, "x"⟩⟩, ⟨8, ⟨7, "y"⟩⟩, foundVm "b.vmx"] 0).findErr
      = false ∧
    joined (ShutdownAllVirtualMachines
      (worldWith [foundVm "a.vmx", ⟨2, ⟨0, "x"⟩⟩, ⟨8, ⟨7, "y"⟩⟩, foundVm "b.vmx"] 0)).calls =
        List.range 2 :=
  ⟨by decide, by decide,
    (((one_job_per_discovery
      (worldWith [foundVm "a.vmx", ⟨2, ⟨0, "x"⟩⟩, ⟨8, ⟨7, "y"⟩⟩, foundVm "b.vmx"] 0)).2.2.2
        (by decide)).2 (by decide)).1⟩

/-- C2 fails on the code: with one VM discovered and a failing enumeration wait,
the function returns at main.cpp 159; the thread of job 0 is started but never
joined, the destructor of `jobData` meets the joinable thread and calls
`std::terminate`, and the host is not disconnected. -/
theorem enumeration_failure_abandons_jobs :
    (ShutdownAllVirtualMachines (worldWith [foundVm "a.vmx"] 9)).calls =
      [Call.VixHost_Connect 1, Call.VixJob_Wait 1 (some 2) 0, Call.Vix_ReleaseHandle 1,
       Call.VixHost_FindItems 2 3, Call.Vix_GetProperties 0, Call.threadStart 0 "a.vmx",
       Call.Vix_FreeBuffer (some "a.vmx"), Call.VixJob_Wait 3 none 9,
       Call.Vix_ReleaseHandle 3, Call.terminate] ∧
    (ShutdownAllVirtualMachines (worldWith [foundVm "a.vmx"] 9)).status = Status.terminated ∧
    started (ShutdownAllVirtualMachines (worldWith [foundVm "a.vmx"] 9)).calls = [0] ∧
    joined (ShutdownAllVirtualMachines (worldWith [foundVm "a.vmx"] 9)).calls = [] := by
  decide

/-- C6 fails on the code: with two VMs discovered and a failing enumeration
wait, `VixHost_Disconnect` is never called and no started job is joined; the
pipeline ends in `std::terminate`. -/
theorem enumeration_failure_skips_disconnect :
    disconnected
      (ShutdownAllVirtualMachines (worldWith [foundVm "a.vmx", foundVm "b.vmx"] 9)).calls = [] ∧
    started
      (ShutdownAllVirtualMachines (worldWith [foundVm "a.vmx", foundVm "b.vmx"] 9)).calls
        = [0, 1] ∧
    joined
      (ShutdownAllVirtualMachines (worldWith [foundVm "a.vmx", foundVm "b.vmx"] 9)).calls = [] ∧
    (ShutdownAllVirtualMachines (worldWith [foundVm "a.vmx", foundVm "b.vmx"] 9)).status =
      Status.terminated := by
  decide

/-- C7: when the connect step fails the pipeline makes four calls only (connect,
wait, release of the connect job, disconnect) and returns: it issues no
`VixHost_FindItems`, starts no job, and in every run of the process no job
thread makes a call, so no `VixVM_PowerOff` is issued. -/
theorem connect_failure_aborts (w : World) (h : VIX_FAILED w.connectErr = true) :
    (ShutdownAllVirtualMachines w).calls =
      [Call.VixHost_Connect w.connectJob,
       Call.VixJob_Wait w.connectJob w.connectHost w.connectErr,
       Call.Vix_ReleaseHandle w.connectJob,
       Call.VixHost_Disconnect w.hostHandle] ∧
    (ShutdownAllVirtualMachines w).status = Status.returned ∧
    (ShutdownAllVirtualMachines w).calls.any Call.isFindItems = false ∧
    started (ShutdownAllVirtualMachines w).calls = [] ∧
    (∀ sched tr, Sys.run w (Sys.init w) sched = some tr →
      ∀ e ∈ tr, e.1 = Tid.main ∧ e.2.isPowerOff = false ∧ e.2.isFindItems = false) := by
  obtain ⟨e1, e2⟩ := shutdown_of_connect_failed w h
  refine ⟨e1, e2, ?_, ?_, ?_⟩
  · rw [e1]
    simp [Call.isFindItems]
  · rw [e1]
    simp [started]
  · intro sched tr hrun e he
    obtain ⟨t, c⟩ := e
    cases t with
    | main =>
      have hc := run_main_mem w sched (Sys.init w) tr hrun c he
      simp only [Sys.init, e1, List.mem_cons, List.mem_singleton, List.not_mem_nil,
        or_false] at hc
      rcases hc with hc | hc | hc | hc <;> rw [hc] <;>
        simp [Call.isPowerOff, Call.isFindItems]
    | job id =>
      exfalso
      obtain ⟨k, hk⟩ := List.getElem?_of_mem he
      rcases run_job_after_start w sched (Sys.init w) tr hrun k id c hk with hin | hst
      · simp [Sys.init] at hin
      · obtain ⟨k2, loc, _, hget⟩ := hst
        have hmem := run_main_mem w sched (Sys.init w) tr hrun _ (List.getElem?_mem hget)
        have := (threadStart_mem_shutdown w id loc hmem).1
        rw [h] at this
        simp at this

/-- Witness of C7: a world whose connect wait fails with error 4. -/
theorem connect_failure_aborts_witness :
    VIX_FAILED worldConnectFails.connectErr = true ∧
    (ShutdownAllVirtualMachines worldConnectFails).calls =
      [Call.VixHost_Connect 1, Call.VixJob_Wait 1 none 4, Call.Vix_ReleaseHandle 1,
       Call.VixHost_Disconnect VIX_INVALID_HANDLE] :=
  ⟨by decide, (connect_failure_aborts worldConnectFails (by decide)).1⟩

/-- C3, as stated, fails: with one VM discovered and a successful enumeration
there is a run in which job 0 issues `VixVM_Open` (position 6) before the wait on
the enumeration job returns (position 8); the callback started the thread at
position 5. -/
theorem job_starts_during_enumeration_counterexample :
    Sys.run (worldWith [foundVm "a.vmx"] 0) (Sys.init (worldWith [foundVm "a.vmx"] 0))
      earlySchedule = some earlyTrace ∧
    earlyTrace[5]? = some (Tid.main, Call.threadStart 0 "a.vmx") ∧
    earlyTrace[6]? = some (Tid.job 0, Call.VixVM_Open 2 "a.vmx" 11) ∧
    earlyTrace[8]? = some (Tid.main,
      Call.VixJob_Wait (worldWith [foundVm "a.vmx"] 0).findJob none
        (worldWith [foundVm "a.vmx"] 0).findErr) := by
  decide

/-- C3, amended: the discovery callback appends a job record and thereby starts
its execution (the thread is constructed in place and joinable at once); in every
run, no power-off job makes a call before the discovery callback that created it
has started its thread, and that callback handled an event which discovered the
VM of the job. -/
theorem job_runs_after_its_start (w : World) :
    (∀ (ev : FindEvent) (jobData : JobData), ev.discovers = true →
      (HandleRunningVm ev.eventType ev.moreEventInfo jobData).calls =
        [Call.Vix_GetProperties ev.moreEventInfo.err,
         Call.threadStart jobData.jobs.length ev.moreEventInfo.location,
         Call.Vix_FreeBuffer (some ev.moreEventInfo.location)] ∧
      (HandleRunningVm ev.eventType ev.moreEventInfo jobData).state.jobData.jobs =
        jobData.jobs ++
          [{ id := jobData.jobs.length, locationStr := ev.moreEventInfo.location
             joinable := true }]) ∧
    (∀ (sched : List Tid) (tr : List (Tid × Call)),
      Sys.run w (Sys.init w) sched = some tr →
      ∀ (k id : Nat) (c : Call), tr[k]? = some (Tid.job id, c) →
        ∃ k2 loc, k2 < k ∧ tr[k2]? = some (Tid.main, Call.threadStart id loc) ∧
          Call.threadStart id loc ∈ w.callbackCalls ∧
          ∃ ev ∈ w.events, ev.discovers = true ∧ ev.moreEventInfo.location = loc) := by
  refine ⟨?_, ?_⟩
  · intro ev jobData hd
    obtain ⟨hc, hs⟩ := HandleRunningVm_of_discovers ev jobData hd
    exact ⟨hc, by rw [hs]⟩
  · intro sched tr hrun k id c hk
    rcases run_job_after_start w sched (Sys.init w) tr hrun k id c hk with hin | hst
    · simp [Sys.init] at hin
    · obtain ⟨k2, loc, hlt, hget⟩ := hst
      have hmem := run_main_mem w sched (Sys.init w) tr hrun _ (List.getElem?_mem hget)
      have hcb := (threadStart_mem_shutdown w id loc hmem).2
      exact ⟨k2, loc, hlt, hget, hcb,
        threadStart_mem_deliverEvents w.events _ id loc hcb⟩

/-- Witness of C3: in the run `earlyTrace` the call of job 0 at position 6 comes
after the start of its thread. -/
theorem job_runs_after_its_start_witness :
    Sys.run (worldWith [foundVm "a.vmx"] 0) (Sys.init (worldWith [foundVm "a.vmx"] 0))
      earlySchedule = some earlyTrace ∧
    earlyTrace[6]? = some (Tid.job 0, Call.VixVM_Open 2 "a.vmx" 11) ∧
    ∃ k2 loc, k2 < 6 ∧ earlyTrace[k2]? = some (Tid.main, Call.threadStart 0 loc) ∧
      Call.threadStart 0 loc ∈ (worldWith [foundVm "a.vmx"] 0).callbackCalls ∧
      ∃ ev ∈ (worldWith [foundVm "a.vmx"] 0).events,
        ev.discovers = true ∧ ev.moreEventInfo.location = loc :=
  ⟨by decide, by decide,
    (job_runs_after_its_start (worldWith [foundVm "a.vmx"] 0)).2 earlySchedule earlyTrace
      (by decide) 6 0 (Call.VixVM_Open 2 "a.vmx" 11) (by decide)⟩

/-- Isolation of a job failure, as far as the code provides it: replace the
answers of the service to job `j` by any other answers `r` (for instance failing
ones).  Every other job makes the same calls with the same results and ends the
same way; the main thread makes the same calls and ends the same way; whenever
connect and enumeration succeed, the pipeline of the second run joins all `N`
jobs, then disconnects once, and returns; and no run of the second world blocks
before the main thread has made all its calls. -/
theorem job_failure_is_isolated (w : World) (j : Nat) (r : JobResponses) :
    (∀ (i : Nat) (loc : String), i ≠ j →
      (jobExec (w.withJobResp j r) i loc).calls = (jobExec w i loc).calls ∧
      (jobExec (w.withJobResp j r) i loc).status = (jobExec w i loc).status ∧
      (jobExec (w.withJobResp j r) i loc).status = Status.returned) ∧
    (ShutdownAllVirtualMachines (w.withJobResp j r)).calls =
      (ShutdownAllVirtualMachines w).calls ∧
    (ShutdownAllVirtualMachines (w.withJobResp j r)).status =
      (ShutdownAllVirtualMachines w).status ∧
    (VIX_FAILED w.connectErr = false → VIX_FAILED w.findErr = false →
      started (ShutdownAllVirtualMachines (w.withJobResp j r)).calls =
        List.range (w.events.countP FindEvent.discovers) ∧
      joined (ShutdownAllVirtualMachines (w.withJobResp j r)).calls =
        List.range (w.events.countP FindEvent.discovers) ∧
      disconnected (ShutdownAllVirtualMachines (w.withJobResp j r)).calls = [w.hostHandle] ∧
      (ShutdownAllVirtualMachines (w.withJobResp j r)).status = Status.returned ∧
      ∃ pre, (ShutdownAllVirtualMachines (w.withJobResp j r)).calls =
        pre ++ (List.range (w.events.countP FindEvent.discovers)).map Call.threadJoin ++
          [Call.VixHost_Disconnect w.hostHandle] ∧ joined pre = [] ∧ disconnected pre = []) ∧
    (∀ (sched : List Tid) (s2 : Sys),
      Sys.after (w.withJobResp j r) (Sys.init (w.withJobResp j r)) sched = some s2 →
      s2.main ≠ [] → ∃ t, (Sys.step (w.withJobResp j r) s2 t).isSome = true) := by
  have hsame : ShutdownAllVirtualMachines (w.withJobResp j r) = ShutdownAllVirtualMachines w :=
    rfl
  obtain ⟨t1, t2, _, _⟩ := threads_spec w
  obtain ⟨_, d2, d3, _, _, _, _⟩ :=
    deliverEvents_spec w.events { hostHandle := w.hostHandle, jobs := [] }
  have hjoins : w.threads.map (fun t => Call.threadJoin t.id) =
      (List.range (w.events.countP FindEvent.discovers)).map Call.threadJoin := by
    rw [← t2, List.map_map]
    rfl
  refine ⟨?_, by rw [hsame], by rw [hsame], ?_, run_never_blocks (w.withJobResp j r)⟩
  · intro i loc hij
    have hresp : (w.withJobResp j r).jobResp i = w.jobResp i := by
      simp [World.withJobResp, hij]
    have hexec : jobExec (w.withJobResp j r) i loc = jobExec w i loc := by
      simp only [jobExec, hresp]
      rfl
    rw [hexec]
    exact ⟨rfl, rfl, powerOffJob_status _ _ _ _⟩
  · intro hc hf
    rw [hsame]
    obtain ⟨e1, e2⟩ := shutdown_of_find_ok w hc hf
    refine ⟨?_, ?_, ?_, e2, ?_⟩
    · rw [e1]
      simp [started_append, started, t1, started_map_threadJoin]
    · rw [e1]
      have : joined w.callbackCalls = [] := d2
      simp [joined_append, joined, this, joined_map_threadJoin, t2]
    · rw [e1]
      have : disconnected w.callbackCalls = [] := d3
      simp [disconnected_append, disconnected, this, disconnected_map_threadJoin]
    · refine ⟨[Call.VixHost_Connect w.connectJob,
          Call.VixJob_Wait w.connectJob w.connectHost w.connectErr,
          Call.Vix_ReleaseHandle w.connectJob,
          Call.VixHost_FindItems w.hostHandle w.findJob] ++ w.callbackCalls ++
          [Call.VixJob_Wait w.findJob none w.findErr, Call.Vix_ReleaseHandle w.findJob],
        ?_, ?_, ?_⟩
      · rw [e1, hjoins]
      · have : joined w.callbackCalls = [] := d2
        simp [joined_append, joined, this]
      · have : disconnected w.callbackCalls = [] := d3
        simp [disconnected_append, disconnected, this]

/-- C9 fails on the code: two VMs are discovered, the enumeration wait fails
with error 9, and the two runs differ only in the answers to job 1 (both steps
succeed in the first run, the open step fails in the second).  Job 0 makes the
same calls in both runs, but in neither run does the pipeline join a job,
disconnect or return: both runs start the jobs 0 and 1 and end in
`std::terminate`. -/
theorem job_failure_runs_terminate :
    (jobExec ((worldWith [foundVm "a.vmx", foundVm "b.vmx"] 9).withJobResp 1 respOpenFails)
        0 "a.vmx").calls =
      (jobExec (worldWith [foundVm "a.vmx", foundVm "b.vmx"] 9) 0 "a.vmx").calls ∧
    (jobExec ((worldWith [foundVm "a.vmx", foundVm "b.vmx"] 9).withJobResp 1 respOpenFails)
        1 "b.vmx").calls =
      [Call.VixVM_Open 2 "b.vmx" 11, Call.VixJob_Wait 11 none 5, Call.Vix_ReleaseHandle 11,
       Call.Vix_ReleaseHandle VIX_INVALID_HANDLE] ∧
    started (ShutdownAllVirtualMachines
      (worldWith [foundVm "a.vmx", foundVm "b.vmx"] 9)).calls = [0, 1] ∧
    joined (ShutdownAllVirtualMachines
      (worldWith [foundVm "a.vmx", foundVm "b.vmx"] 9)).calls = [] ∧
    disconnected (ShutdownAllVirtualMachines
      (worldWith [foundVm "a.vmx", foundVm "b.vmx"] 9)).calls = [] ∧
    (ShutdownAllVirtualMachines
      (worldWith [foundVm "a.vmx", foundVm "b.vmx"] 9)).status = Status.terminated ∧
    started (ShutdownAllVirtualMachines
      ((worldWith [foundVm "a.vmx", foundVm "b.vmx"] 9).withJobResp 1 respOpenFails)).calls
        = [0, 1] ∧
    joined (ShutdownAllVirtualMachines
      ((worldWith [foundVm "a.vmx", foundVm "b.vmx"] 9).withJobResp 1 respOpenFails)).calls
        = [] ∧
    disconnected (ShutdownAllVirtualMachines
      ((worldWith [foundVm "a.vmx", foundVm "b.vmx"] 9).withJobResp 1 respOpenFails)).calls
        = [] ∧
    (ShutdownAllVirtualMachines
      ((worldWith [foundVm "a.vmx", foundVm "b.vmx"] 9).withJobResp 1 respOpenFails)).status =
        Status.terminated := by
  decide

/-! ## Claims about the completion flag -/

/-- The handler leaves `quit` as it is or sets it; a set flag stays set. -/
theorem EventHandler_state (m : Message) (quit : Bool) :
    (EventHandler m quit).state = true ∨ (EventHandler m quit).state = quit := by
  unfold EventHandler
  split
  · split
    · exact Or.inr rfl
    · exact Or.inl rfl
  · exact Or.inr rfl

/-- Along every history the flag never falls, and it rises at most once, and not
at all when it starts set. -/
theorem quitHistory_spec (msgs : List Message) (quit : Bool) :
    (∃ tl, quitHistory quit msgs = quit :: tl) ∧
    fallings (quitHistory quit msgs) = 0 ∧
    risings (quitHistory quit msgs) ≤ (if quit then 0 else 1) := by
  induction msgs generalizing quit with
  | nil => cases quit <;> simp [quitHistory, risings, fallings]
  | cons m ms ih =>
    obtain ⟨⟨tl, htl⟩, hfall, hrise⟩ := ih (EventHandler m quit).state
    have hstate := EventHandler_state m quit
    cases hst : (EventHandler m quit).status
    case terminated => cases quit <;> simp [quitHistory, hst, risings, fallings]
    all_goals
      simp only [quitHistory, hst]
      rw [htl] at hfall hrise ⊢
      cases quit <;> cases hq : (EventHandler m _).state <;>
        simp_all [risings, fallings]

/-- C10: the flag `quit` is false at process start, and over every sequence of
messages handled by `EventHandler` it changes from false to true at most once
and never changes from true to false; the handler itself never stores false. -/
theorem quit_set_at_most_once :
    quit_initial = false ∧
    (∀ msgs : List Message,
      risings (quitHistory quit_initial msgs) ≤ 1 ∧
      fallings (quitHistory quit_initial msgs) = 0) ∧
    (∀ (m : Message) (quit : Bool),
      (EventHandler m quit).state = true ∨ (EventHandler m quit).state = quit) := by
  refine ⟨rfl, ?_, EventHandler_state⟩
  intro msgs
  obtain ⟨_, hfall, hrise⟩ := quitHistory_spec msgs quit_initial
  exact ⟨by simpa [quit_initial] using hrise, hfall⟩

end VMWareAutoShutdown
